import Mathlib

/-!
Shallow embedding of the k8s-mcp-server core (log parsing, filtering and
export; resource-kind resolution; MCP command dispatch), together with
theorems checking the specification's claims against the embedded code.

Go strings are modelled as lists of unicode scalar values; Go `error`
values are modelled by their message strings; fallible Go functions
return `Option` or `Except`.
-/

/-- Go strings, modelled as lists of unicode scalar values. -/
abbrev GoStr := List Char

/-- Turn a Lean string literal into a `GoStr`. -/
def gs (s : String) : GoStr := s.data

/-- ASCII decimal digit test (Go's regexp `\d` and `unicode` digit test on ASCII). -/
def isDigitCh (c : Char) : Bool := '0' ≤ c && c ≤ '9'

/-- Numeric value of an ASCII digit character. -/
def dval (c : Char) : Nat := c.toNat - 48

/-- ASCII digit character of a value below 10 (clamped to '0' otherwise). -/
def dchar : Nat → Char
  | 0 => '0'
  | 1 => '1'
  | 2 => '2'
  | 3 => '3'
  | 4 => '4'
  | 5 => '5'
  | 6 => '6'
  | 7 => '7'
  | 8 => '8'
  | 9 => '9'
  | _ => '0'

/-- Lowercase hexadecimal digit of a value below 16 (as produced by `encoding/json`). -/
def hexDigitCh : Nat → Char
  | 0 => '0'
  | 1 => '1'
  | 2 => '2'
  | 3 => '3'
  | 4 => '4'
  | 5 => '5'
  | 6 => '6'
  | 7 => '7'
  | 8 => '8'
  | 9 => '9'
  | 10 => 'a'
  | 11 => 'b'
  | 12 => 'c'
  | 13 => 'd'
  | 14 => 'e'
  | 15 => 'f'
  | _ => '0'

/-- Numeric value of a hexadecimal digit character, in either case. -/
def hexVal (c : Char) : Option Nat :=
  if isDigitCh c then some (dval c)
  else if 'a' ≤ c && c ≤ 'f' then some (c.toNat - 87)
  else if 'A' ≤ c && c ≤ 'F' then some (c.toNat - 55)
  else none

/-- Two-digit zero-padded decimal rendering (Go's `%02d` for in-range values). -/
def pad2 (n : Nat) : GoStr := [dchar (n / 10 % 10), dchar (n % 10)]

/-- Four-digit zero-padded decimal rendering. -/
def pad4 (n : Nat) : GoStr :=
  [dchar (n / 1000 % 10), dchar (n / 100 % 10), dchar (n / 10 % 10), dchar (n % 10)]

/-- Nine-digit zero-padded decimal rendering (nanoseconds). -/
def pad9 (n : Nat) : GoStr :=
  [dchar (n / 100000000 % 10), dchar (n / 10000000 % 10), dchar (n / 1000000 % 10),
   dchar (n / 100000 % 10), dchar (n / 10000 % 10), dchar (n / 1000 % 10),
   dchar (n / 100 % 10), dchar (n / 10 % 10), dchar (n % 10)]

/-- Value of a list of decimal digit characters, most significant first. -/
def digitsVal (l : GoStr) : Nat := l.foldl (fun a c => a * 10 + dval c) 0

/-- Drop trailing '0' characters (Go's `RFC3339Nano` fraction formatting). -/
def stripTrailingZeros (l : GoStr) : GoStr :=
  (l.reverse.dropWhile (fun c => c == '0')).reverse

/-- Read one decimal digit from the front of a string. -/
def readDigit : GoStr → Option (Nat × GoStr)
  | c :: r => if isDigitCh c then some (dval c, r) else none
  | [] => none

/-- Read exactly two decimal digits. -/
def read2 (s : GoStr) : Option (Nat × GoStr) := do
  let (a, s) ← readDigit s
  let (b, s) ← readDigit s
  pure (a * 10 + b, s)

/-- Read exactly four decimal digits. -/
def read4 (s : GoStr) : Option (Nat × GoStr) := do
  let (a, s) ← readDigit s
  let (b, s) ← readDigit s
  let (c, s) ← readDigit s
  let (d, s) ← readDigit s
  pure (((a * 10 + b) * 10 + c) * 10 + d, s)

/-- Require a specific leading character. -/
def expectCh (c : Char) : GoStr → Option GoStr
  | d :: r => if d = c then some r else none
  | [] => none

/-- A wall-clock instant, as the components serialized by RFC3339: this models
the observable content of a Go `time.Time` in the paths the program uses. -/
structure Timestamp where
  year : Nat
  month : Nat
  day : Nat
  hour : Nat
  minute : Nat
  second : Nat
  nanos : Nat
  offsetMin : Int
deriving DecidableEq

/-- Gregorian leap-year rule (as in Go's `time` package). -/
def isLeapYear (y : Nat) : Bool := (y % 4 == 0 && y % 100 != 0) || y % 400 == 0

/-- Days in a month (month numbered from 1). -/
def daysInMonth (m y : Nat) : Nat :=
  match m with
  | 1 => 31
  | 2 => if isLeapYear y then 29 else 28
  | 3 => 31
  | 4 => 30
  | 5 => 31
  | 6 => 30
  | 7 => 31
  | 8 => 31
  | 9 => 30
  | 10 => 31
  | 11 => 30
  | 12 => 31
  | _ => 0

/-- Timestamps in the ranges Go's `time` marshals and parses without error. -/
def Timestamp.WF (t : Timestamp) : Prop :=
  t.year ≤ 9999 ∧ 1 ≤ t.month ∧ t.month ≤ 12 ∧ 1 ≤ t.day ∧
  t.day ≤ daysInMonth t.month t.year ∧ t.hour ≤ 23 ∧ t.minute ≤ 59 ∧
  t.second ≤ 59 ∧ t.nanos ≤ 999999999 ∧ t.offsetMin.natAbs ≤ 1439

instance : DecidablePred Timestamp.WF := fun t => by
  unfold Timestamp.WF
  exact inferInstance

/-- Zone suffix of Go's RFC3339 formats: "Z" for offset zero, otherwise a
signed hours:minutes offset. -/
def formatZone (off : Int) : GoStr :=
  if off = 0 then ['Z']
  else (if 0 < off then '+' else '-') ::
    (pad2 (off.natAbs / 60) ++ ':' :: pad2 (off.natAbs % 60))

/-- Go `time.RFC3339` rendering of a timestamp (no sub-second fraction). -/
def formatRFC3339 (t : Timestamp) : GoStr :=
  pad4 t.year ++ '-' :: (pad2 t.month ++ '-' :: (pad2 t.day ++ 'T' ::
    (pad2 t.hour ++ ':' :: (pad2 t.minute ++ ':' ::
      (pad2 t.second ++ formatZone t.offsetMin)))))

/-- Fractional-second part of `RFC3339Nano`: omitted when zero, otherwise a
dot followed by the nanoseconds with trailing zeros removed. -/
def formatFrac (ns : Nat) : GoStr :=
  if ns = 0 then [] else '.' :: stripTrailingZeros (pad9 ns)

/-- Go `time.RFC3339Nano` rendering of a timestamp (used by `time.Time`'s
JSON marshalling). -/
def formatRFC3339Nano (t : Timestamp) : GoStr :=
  pad4 t.year ++ '-' :: (pad2 t.month ++ '-' :: (pad2 t.day ++ 'T' ::
    (pad2 t.hour ++ ':' :: (pad2 t.minute ++ ':' ::
      (pad2 t.second ++ (formatFrac t.nanos ++ formatZone t.offsetMin))))))

/-- Optional fractional second after the seconds field; Go's `time.Parse`
accepts it even though the `RFC3339` layout has no fraction. -/
def parseFrac (s : GoStr) : Option (Nat × GoStr) :=
  match s with
  | '.' :: rest =>
    let ds := rest.takeWhile (fun c => isDigitCh c)
    if ds.length = 0 ∨ 9 < ds.length then none
    else some (digitsVal ds * 10 ^ (9 - ds.length), rest.drop ds.length)
  | _ => some (0, s)

/-- Mandatory zone: "Z" or a signed hours:minutes offset with the ranges
Go's RFC3339 parsing enforces. An input exhausted before the zone fails. -/
def parseZone (s : GoStr) : Option (Int × GoStr) :=
  match s with
  | 'Z' :: r => some (0, r)
  | '+' :: r => do
    let (h, r) ← read2 r
    let r ← expectCh ':' r
    let (m, r) ← read2 r
    if h ≤ 23 ∧ m ≤ 59 then some (((h * 60 + m : Nat) : Int), r) else none
  | '-' :: r => do
    let (h, r) ← read2 r
    let r ← expectCh ':' r
    let (m, r) ← read2 r
    if h ≤ 23 ∧ m ≤ 59 then some ((-((h * 60 + m : Nat) : Int)), r) else none
  | _ => none

/-- Core of Go's `time.Parse(time.RFC3339, ...)`: date, 'T', clock time, an
optional fraction, then a mandatory zone, with component range checks. -/
def parseRFC3339Core (s : GoStr) : Option (Timestamp × GoStr) := do
  let (y, s) ← read4 s
  let s ← expectCh '-' s
  let (mo, s) ← read2 s
  let s ← expectCh '-' s
  let (d, s) ← read2 s
  let s ← expectCh 'T' s
  let (h, s) ← read2 s
  let s ← expectCh ':' s
  let (mi, s) ← read2 s
  let s ← expectCh ':' s
  let (sec, s) ← read2 s
  let (ns, s) ← parseFrac s
  let (off, s) ← parseZone s
  if 1 ≤ mo ∧ mo ≤ 12 ∧ 1 ≤ d ∧ d ≤ daysInMonth mo y ∧ h ≤ 23 ∧ mi ≤ 59 ∧ sec ≤ 59 then
    some (⟨y, mo, d, h, mi, sec, ns, off⟩, s)
  else none

/-- Go's `time.Parse(time.RFC3339, s)`: the whole input must be consumed. -/
def parseRFC3339Full (s : GoStr) : Option Timestamp :=
  match parseRFC3339Core s with
  | some (t, []) => some t
  | _ => none

/-- Unicode white space, as Go's `unicode.IsSpace`. -/
def isGoSpace (c : Char) : Bool :=
  c == ' ' || c == '\t' || c == '\n' || (0xB ≤ c.toNat && c.toNat ≤ 0xD) ||
  c.toNat == 0x85 || c.toNat == 0xA0 || c.toNat == 0x1680 ||
  (0x2000 ≤ c.toNat && c.toNat ≤ 0x200A) || c.toNat == 0x2028 ||
  c.toNat == 0x2029 || c.toNat == 0x202F || c.toNat == 0x205F || c.toNat == 0x3000

/-- Go's `strings.TrimSpace`. -/
def trimSpaceGo (s : GoStr) : GoStr :=
  ((s.dropWhile isGoSpace).reverse.dropWhile isGoSpace).reverse

/-- ASCII lowering of one character (the fold the embedded matchers need). -/
def lowerAscii (c : Char) : Char :=
  if 'A' ≤ c && c ≤ 'Z' then Char.ofNat (c.toNat + 32) else c

/-- ASCII raising of one character (Go's `strings.ToUpper` on the ASCII
words the log-level matcher can return). -/
def upperAscii (c : Char) : Char :=
  if 'a' ≤ c && c ≤ 'z' then Char.ofNat (c.toNat - 32) else c

/-- Characterwise ASCII lowering. -/
def lowerStr (s : GoStr) : GoStr := s.map lowerAscii

/-- Characterwise ASCII raising. -/
def upperStr (s : GoStr) : GoStr := s.map upperAscii

/-- Go's `strings.EqualFold` (ASCII fold; the values compared in this
program are ASCII level names). -/
def eqFold (a b : GoStr) : Bool := lowerStr a == lowerStr b

/-- Word characters for the regexp `\b` boundary: `[0-9A-Za-z_]`. -/
def isWordChar (c : Char) : Bool :=
  isDigitCh c || ('a' ≤ c && c ≤ 'z') || ('A' ≤ c && c ≤ 'Z') || c == '_'

/-- Whether a string starts with the 19-character shape
`YYYY-MM-DDTHH:MM:SS` matched by the source's timestamp regexp. -/
def tsShapeOk (l : GoStr) : Bool :=
  19 ≤ l.length &&
  (List.range 19).all (fun i =>
    let c := l.getD i ' '
    if i = 4 ∨ i = 7 then c == '-'
    else if i = 10 then c == 'T'
    else if i = 13 ∨ i = 16 then c == ':'
    else isDigitCh c)

/-- Leftmost match of the timestamp regexp
`\d{4}-\d{2}-\d{2}T\d{2}:\d{2}:\d{2}` (`FindString`), `none` when absent. -/
def findTimestampMatch : GoStr → Option GoStr
  | [] => none
  | l@(_ :: rest) =>
    if tsShapeOk l then some (l.take 19) else findTimestampMatch rest

/-- The alternatives of the log-level regexp, lowercased. -/
def levelWords : List GoStr :=
  [gs "info", gs "error", gs "warn", gs "debug", gs "fatal"]

/-- Whether level word `w` matches at the current position: case-insensitive
equality plus `\b` word boundaries on both sides (`prev` is the preceding
character, if any). -/
def matchWordAt (prev : Option Char) (l : GoStr) (w : GoStr) : Bool :=
  (match prev with
   | none => true
   | some p => !isWordChar p) &&
  w.length ≤ l.length && lowerStr (l.take w.length) == w &&
  (match l.drop w.length with
   | [] => true
   | c :: _ => !isWordChar c)

/-- Scan for the leftmost whole-word, case-insensitive match of a level word. -/
def findLevelFrom (prev : Option Char) : GoStr → Option GoStr
  | [] => none
  | l@(c :: rest) =>
    match levelWords.find? (fun w => matchWordAt prev l w) with
    | some w => some (l.take w.length)
    | none => findLevelFrom (some c) rest

/-- `FindString` of the source's regexp `(?i)\b(info|error|warn|debug|fatal)\b`,
returning the matched text, `none` when absent. -/
def findLogLevel (l : GoStr) : Option GoStr := findLevelFrom none l

/-- A structured log entry (`LogEntry` in pkg/logs; the Go field `Namespace`
is named `nspace` because `namespace` is a Lean keyword). -/
structure LogEntry where
  timestamp : Timestamp
  message : GoStr
  pod : GoStr
  container : GoStr
  nspace : GoStr
  logLevel : GoStr
deriving DecidableEq

/-- `parseLogEntry` from pkg/logs: default the timestamp to the wall clock
(`now` models the `time.Now()` call), replace it only when the extracted
ISO-8601 prefix parses as a full RFC3339 timestamp, extract an uppercased
log level, and trim the message. -/
def parseLogEntry (line pod container nspace : GoStr) (now : Timestamp) : LogEntry :=
  let timestamp :=
    match findTimestampMatch line with
    | some m =>
      match parseRFC3339Full m with
      | some t => t
      | none => now
    | none => now
  let logLevel :=
    match findLogLevel line with
    | some w => upperStr w
    | none => []
  ⟨timestamp, trimSpaceGo line, pod, container, nspace, logLevel⟩

namespace Re

/-- Regular expressions over characters: the core fragment of the RE2 syntax
accepted by `regexp.Compile` that user-supplied patterns go through. -/
inductive Regex where
  | nul
  | eps
  | any
  | chr (c : Char)
  | alt (a b : Regex)
  | cat (a b : Regex)
  | star (a : Regex)
deriving DecidableEq

/-- Whether the regex accepts the empty string. -/
def nullable : Regex → Bool
  | .nul => false
  | .eps => true
  | .any => false
  | .chr _ => false
  | .alt a b => nullable a || nullable b
  | .cat a b => nullable a && nullable b
  | .star _ => true

/-- Brzozowski derivative by one character. -/
def deriv (c : Char) : Regex → Regex
  | .nul => .nul
  | .eps => .nul
  | .any => .eps
  | .chr d => if d = c then .eps else .nul
  | .alt a b => .alt (deriv c a) (deriv c b)
  | .cat a b =>
    if nullable a then .alt (.cat (deriv c a) b) (deriv c b)
    else .cat (deriv c a) b
  | .star a => .cat (deriv c a) (.star a)

/-- Whether the regex matches some prefix of the string. -/
def matchPrefixAt (r : Regex) : GoStr → Bool
  | [] => nullable r
  | c :: rest => nullable r || matchPrefixAt (deriv c r) rest

/-- Unanchored matching (`Regexp.MatchString`): some substring matches. -/
def matchString (r : Regex) : GoStr → Bool
  | [] => nullable r
  | s@(_ :: rest) => matchPrefixAt r s || matchString r rest

/-- Whether the next character is a repetition operator. -/
def postfixFollows : GoStr → Bool
  | '*' :: _ => true
  | '+' :: _ => true
  | '?' :: _ => true
  | _ => false

/-- Recursive-descent reading of the modelled RE2 fragment; `lvl` 0 parses
alternations, 1 concatenations, 2 a repeated atom, 3 an atom. Characters
whose RE2 meaning lies outside the fragment are rejected. -/
def parseRx : Nat → Nat → GoStr → Option (Regex × GoStr)
  | 0, _, _ => none
  | fuel + 1, 0, s =>
    match parseRx fuel 1 s with
    | some (r, '|' :: rest) =>
      match parseRx fuel 0 rest with
      | some (r2, rest2) => some (.alt r r2, rest2)
      | none => none
    | other => other
  | fuel + 1, 1, s =>
    match s with
    | [] => some (.eps, [])
    | ')' :: _ => some (.eps, s)
    | '|' :: _ => some (.eps, s)
    | _ =>
      match parseRx fuel 2 s with
      | some (r, rest) =>
        match parseRx fuel 1 rest with
        | some (r2, rest2) => some (.cat r r2, rest2)
        | none => none
      | none => none
  | fuel + 1, 2, s =>
    match parseRx fuel 3 s with
    | some (r, '*' :: rest) =>
      if postfixFollows rest then none else some (.star r, rest)
    | some (r, '+' :: rest) =>
      if postfixFollows rest then none else some (.cat r (.star r), rest)
    | some (r, '?' :: rest) =>
      if postfixFollows rest then none else some (.alt .eps r, rest)
    | other => other
  | fuel + 1, _, s =>
    match s with
    | '(' :: rest =>
      match parseRx fuel 0 rest with
      | some (r, ')' :: rest2) => some (r, rest2)
      | _ => none
    | '.' :: rest => some (.any, rest)
    | '\\' :: c :: rest => if isWordChar c then none else some (.chr c, rest)
    | c :: rest =>
      if c ∈ (['(', ')', '|', '*', '+', '?', '[', ']', '\x7b', '\x7d', '^', '$', '\\'] : List Char)
      then none
      else some (.chr c, rest)
    | [] => none

/-- `regexp.Compile` on the modelled fragment: the whole pattern must be
consumed; anything else (unbalanced parentheses, dangling operators,
constructs outside the fragment) is rejected. -/
def compile (p : GoStr) : Option Regex :=
  match parseRx (4 * p.length + 8) 0 p with
  | some (r, []) => some r
  | _ => none

end Re

/-- Concatenation of the images of a list's elements. -/
def concatMap (f : α → List β) : List α → List β
  | [] => []
  | a :: as => f a ++ concatMap f as

/-- Helper for `completeLines`: `acc` holds the reversed current line. -/
def completeLinesAux (acc : GoStr) : GoStr → List GoStr
  | [] => []
  | c :: rest =>
    if c = '\n' then (acc.reverse ++ ['\n']) :: completeLinesAux [] rest
    else completeLinesAux (c :: acc) rest

/-- The newline-terminated lines of a stream, each including its '\n';
a final unterminated segment is dropped, as the `ReadString('\n')` /
`io.EOF` break loop in `GetLogs` does. -/
def completeLines (s : GoStr) : List GoStr := completeLinesAux [] s

/-- A backend log-fetch time bound: either an absolute timestamp or
`time.Now().Add(-d)`, kept symbolically (the program never inspects it). -/
inductive SinceTime where
  | absolute (t : Timestamp)
  | relative (now : Timestamp) (negNanos : Int)
deriving DecidableEq

/-- `LogOptions` of pkg/logs (the Go field `Namespace` is named `nspace`). -/
structure LogOptions where
  nspace : GoStr
  pod : GoStr
  container : GoStr
  sinceTime : Option SinceTime
  sinceSeconds : Option Int
  tail : Option Int
  pattern : GoStr
  logLevel : GoStr
deriving DecidableEq

/-- The `corev1.PodLogOptions` request built by `GetLogs`. -/
structure PodLogOptions where
  container : GoStr
  sinceTime : Option SinceTime
  sinceSeconds : Option Int
  tailLines : Option Int
  follow : Bool
deriving DecidableEq

/-- The backend's log-stream open operation, keyed by namespace, pod and
the fetch options; yields the raw stream or a refusal. -/
structure LogBackend where
  openStream : GoStr → GoStr → PodLogOptions → Except GoStr GoStr

/-- A backend that always serves the fixed stream `s`. -/
def constLogBackend (s : GoStr) : LogBackend := ⟨fun _ _ _ => .ok s⟩

/-- Compile the user pattern up front, as `GetLogs` does: an empty pattern
compiles to no filter, an invalid one fails the retrieval. -/
def compiledPattern (p : GoStr) : Except GoStr (Option Re.Regex) :=
  if p.isEmpty then .ok none
  else
    match Re.compile p with
    | some r => .ok (some r)
    | none => .error (gs "invalid regex pattern")

/-- The read-parse-filter loop of `GetLogs` over the terminated lines; `i`
counts lines read so `clock i` models the per-line `time.Now()`. -/
def logLoop (re? : Option Re.Regex) (lvl pod container nspace : GoStr)
    (clock : Nat → Timestamp) : List GoStr → Nat → List LogEntry
  | [], _ => []
  | line :: ls, i =>
    let entry := parseLogEntry line pod container nspace (clock i)
    if (match re? with
        | some r => !Re.matchString r entry.message
        | none => false) then
      logLoop re? lvl pod container nspace clock ls (i + 1)
    else if !lvl.isEmpty && !eqFold entry.logLevel lvl then
      logLoop re? lvl pod container nspace clock ls (i + 1)
    else
      entry :: logLoop re? lvl pod container nspace clock ls (i + 1)

/-- The part of `GetLogs` that runs once the stream is open: fail-fast
pattern compilation, then the line loop. -/
def getLogsFromStream (opts : LogOptions) (clock : Nat → Timestamp)
    (stream : GoStr) : Except GoStr (List LogEntry) :=
  match compiledPattern opts.pattern with
  | .error e => .error e
  | .ok re? =>
    .ok (logLoop re? opts.logLevel opts.pod opts.container opts.nspace clock
      (completeLines stream) 0)

/-- `GetLogs` from pkg/logs: build the fetch request, open the stream,
compile the pattern, then read, parse and filter line by line. -/
def GetLogs (lb : LogBackend) (clock : Nat → Timestamp)
    (opts : LogOptions) : Except GoStr (List LogEntry) :=
  match lb.openStream opts.nspace opts.pod
      ⟨opts.container, opts.sinceTime, opts.sinceSeconds, opts.tail, false⟩ with
  | .error e => .error (gs "error opening log stream: " ++ e)
  | .ok stream => getLogsFromStream opts clock stream

/-- One JSON-escaped character, as Go's `encoding/json` encoder writes it
(HTML escaping on, the default for `json.NewEncoder`/`json.Marshal`). -/
def escapeJsonChar (c : Char) : GoStr :=
  if c = '"' then ['\\', '"']
  else if c = '\\' then ['\\', '\\']
  else if c = '\n' then ['\\', 'n']
  else if c = '\r' then ['\\', 'r']
  else if c = '\t' then ['\\', 't']
  else if c.toNat < 32 ∨ c = '<' ∨ c = '>' ∨ c = '&' then
    ['\\', 'u', '0', '0', hexDigitCh (c.toNat / 16), hexDigitCh (c.toNat % 16)]
  else if c.toNat = 0x2028 ∨ c.toNat = 0x2029 then
    ['\\', 'u', '2', '0', '2', hexDigitCh (c.toNat % 16)]
  else [c]

/-- JSON escaping of a whole string. -/
def escapeJson (s : GoStr) : GoStr := concatMap escapeJsonChar s

/-- A JSON string literal. -/
def jsonQuote (s : GoStr) : GoStr := '"' :: (escapeJson s ++ ['"'])

/-- One `"key":"value"` object member. -/
def encodeMember (k v : GoStr) : GoStr := jsonQuote k ++ ':' :: jsonQuote v

/-- Members followed by the closing brace (callers supply a nonempty list). -/
def encodeMembers : List (GoStr × GoStr) → GoStr
  | [] => ['\x7d']
  | [(k, v)] => encodeMember k v ++ ['\x7d']
  | (k, v) :: ms => encodeMember k v ++ ',' :: encodeMembers ms

/-- The members `json.Marshal` writes for a `LogEntry`, in struct order;
`level` carries `omitempty`. -/
def entryFields (e : LogEntry) : List (GoStr × GoStr) :=
  (gs "timestamp", formatRFC3339Nano e.timestamp) :: (gs "message", e.message) ::
  (gs "pod", e.pod) :: (gs "container", e.container) :: (gs "namespace", e.nspace) ::
  (if e.logLevel.isEmpty then [] else [(gs "level", e.logLevel)])

/-- `json.Marshal` of one `LogEntry`. -/
def encodeEntry (e : LogEntry) : GoStr := '\x7b' :: encodeMembers (entryFields e)

/-- `json.Marshal` of a `[]LogEntry` slice: the program's empty result is a
nil slice, which marshals as `null`; a nonempty slice marshals as an array. -/
def encodeEntriesJson : List LogEntry → GoStr
  | [] => gs "null"
  | e :: es =>
    '[' :: (encodeEntry e ++ concatMap (fun x => ',' :: encodeEntry x) es ++ [']'])

/-- `exportToNDJSON`: one encoder `Encode` call per entry, each appending
a newline, in input order. -/
def exportToNDJSON (es : List LogEntry) : GoStr :=
  concatMap (fun e => encodeEntry e ++ ['\n']) es

/-- Whether `encoding/csv` quotes a field (default comma, `UseCRLF` off). -/
def fieldNeedsQuotes (f : GoStr) : Bool :=
  match f with
  | [] => false
  | c :: _ =>
    f == gs "\\." || f.contains ',' || f.contains '"' ||
    f.contains '\r' || f.contains '\n' || isGoSpace c

/-- Inside a quoted CSV field only the quote character is doubled
(`UseCRLF` is off, so '\r' and '\n' pass through). -/
def csvEscape (f : GoStr) : GoStr :=
  concatMap (fun c => if c = '"' then ['"', '"'] else [c]) f

/-- One CSV field as `csv.Writer` renders it. -/
def csvWriteField (f : GoStr) : GoStr :=
  if fieldNeedsQuotes f then '"' :: (csvEscape f ++ ['"']) else f

/-- One CSV record: comma-separated fields and a terminating newline. -/
def csvWriteRecord : List GoStr → GoStr
  | [] => ['\n']
  | [f] => csvWriteField f ++ ['\n']
  | f :: fs => csvWriteField f ++ ',' :: csvWriteRecord fs

/-- The CSV header row written by `exportToCSV`. -/
def csvHeaderRow : List GoStr :=
  [gs "Timestamp", gs "Pod", gs "Container", gs "Namespace", gs "Level", gs "Message"]

/-- The data row written for one entry: RFC3339 timestamp then the string
fields, in the source's column order. -/
def csvRow (e : LogEntry) : List GoStr :=
  [formatRFC3339 e.timestamp, e.pod, e.container, e.nspace, e.logLevel, e.message]

/-- `exportToCSV`: header row then one data row per entry, in order. -/
def exportToCSV (es : List LogEntry) : GoStr :=
  csvWriteRecord csvHeaderRow ++ concatMap (fun e => csvWriteRecord (csvRow e)) es

/-- `exportToPlaintext`: one bracketed line per entry. -/
def exportToPlaintext (es : List LogEntry) : GoStr :=
  concatMap (fun e =>
    '[' :: (formatRFC3339 e.timestamp ++ ']' :: ' ' :: '[' :: (e.nspace ++
      ']' :: ' ' :: '[' :: (e.pod ++ '/' :: (e.container ++ ']' :: ' ' :: '[' ::
        (e.logLevel ++ ']' :: ' ' :: (e.message ++ ['\n']))))))) es

/-- `ExportLogs` from pkg/logs: dispatch on the lowercased format name; the
`json` branch goes through an `Encoder`, which appends a newline. -/
def ExportLogs (es : List LogEntry) (format : GoStr) : Except GoStr GoStr :=
  if lowerStr format = gs "json" then .ok (encodeEntriesJson es ++ ['\n'])
  else if lowerStr format = gs "csv" then .ok (exportToCSV es)
  else if lowerStr format = gs "ndjson" then .ok (exportToNDJSON es)
  else if lowerStr format = gs "plaintext" ∨ lowerStr format = gs "text" then
    .ok (exportToPlaintext es)
  else .error (gs "unsupported export format: " ++ format)

/-- Prepend a character to the string part of a string-reader result. -/
def consF (c : Char) : Option (GoStr × GoStr) → Option (GoStr × GoStr)
  | some (f, r) => some (c :: f, r)
  | none => none

/-- Body of a JSON string literal, after the opening quote: unescape up to
the closing quote and return the rest (a model of the standard reader on
the escapes `encoding/json` can emit, plus the other JSON escapes). -/
def parseJsonStringBody : GoStr → Option (GoStr × GoStr)
  | [] => none
  | c :: r =>
    if c = '"' then some ([], r)
    else if c = '\\' then
      match r with
      | [] => none
      | e :: t =>
        if e = '"' then consF '"' (parseJsonStringBody t)
        else if e = '\\' then consF '\\' (parseJsonStringBody t)
        else if e = '/' then consF '/' (parseJsonStringBody t)
        else if e = 'b' then consF (Char.ofNat 8) (parseJsonStringBody t)
        else if e = 'f' then consF (Char.ofNat 12) (parseJsonStringBody t)
        else if e = 'n' then consF '\n' (parseJsonStringBody t)
        else if e = 'r' then consF '\r' (parseJsonStringBody t)
        else if e = 't' then consF '\t' (parseJsonStringBody t)
        else if e = 'u' then
          match t with
          | h1 :: h2 :: h3 :: h4 :: t2 =>
            match hexVal h1, hexVal h2, hexVal h3, hexVal h4 with
            | some a, some b, some c2, some d =>
              let n := ((a * 16 + b) * 16 + c2) * 16 + d
              if n.isValidChar then consF (Char.ofNat n) (parseJsonStringBody t2)
              else none
            | _, _, _, _ => none
          | _ => none
        else none
    else if 32 ≤ c.toNat then consF c (parseJsonStringBody r)
    else none

/-- Members of a flat string-valued JSON object, up to and including the
closing brace (the shape `json.Marshal` produces for a `LogEntry`). -/
def parseJsonMembers : Nat → GoStr → Option (List (GoStr × GoStr) × GoStr)
  | 0, _ => none
  | fuel + 1, '"' :: s1 =>
    match parseJsonStringBody s1 with
    | some (k, ':' :: '"' :: s3) =>
      match parseJsonStringBody s3 with
      | some (v, ',' :: s5) =>
        match parseJsonMembers fuel s5 with
        | some (ms, s6) => some ((k, v) :: ms, s6)
        | none => none
      | some (v, '\x7d' :: s5) => some ([(k, v)], s5)
      | _ => none
    | _ => none
  | _, _ => none

/-- A flat string-valued JSON object. -/
def parseJsonObj (s : GoStr) : Option (List (GoStr × GoStr) × GoStr) :=
  match s with
  | '\x7b' :: '\x7d' :: r => some ([], r)
  | '\x7b' :: r => parseJsonMembers (r.length + 1) r
  | _ => none

/-- First value bound to a key among the parsed members. -/
def lookupField (ms : List (GoStr × GoStr)) (k : GoStr) : Option GoStr :=
  (ms.find? (fun kv => kv.1 == k)).map (fun kv => kv.2)

/-- The zero `time.Time` an absent `timestamp` member unmarshals to. -/
def zeroTimestamp : Timestamp := ⟨1, 1, 1, 0, 0, 0, 0, 0⟩

/-- Rebuild a `LogEntry` from parsed members, as `json.Unmarshal` fills the
struct: absent members keep zero values, a present but unparsable
`timestamp` fails. -/
def decodeEntryFields (ms : List (GoStr × GoStr)) : Option LogEntry :=
  match (match lookupField ms (gs "timestamp") with
         | some s => parseRFC3339Full s
         | none => some zeroTimestamp) with
  | none => none
  | some ts =>
    some ⟨ts, (lookupField ms (gs "message")).getD [],
      (lookupField ms (gs "pod")).getD [],
      (lookupField ms (gs "container")).getD [],
      (lookupField ms (gs "namespace")).getD [],
      (lookupField ms (gs "level")).getD []⟩

/-- Read one serialized `LogEntry` object and return it plus the rest. -/
def decodeEntry (s : GoStr) : Option (LogEntry × GoStr) :=
  match parseJsonObj s with
  | some (ms, rest) =>
    match decodeEntryFields ms with
    | some e => some (e, rest)
    | none => none
  | none => none

/-- Entries of a JSON array of serialized entries, after the opening
bracket and the first-element check. -/
def decodeEntriesArr : Nat → GoStr → Option (List LogEntry × GoStr)
  | 0, _ => none
  | fuel + 1, s =>
    match decodeEntry s with
    | some (e, ',' :: s2) =>
      match decodeEntriesArr fuel s2 with
      | some (es, s3) => some (e :: es, s3)
      | none => none
    | some (e, ']' :: s2) => some ([e], s2)
    | _ => none

/-- A serialized `[]LogEntry` value: `null` (the nil slice), an empty
array, or a nonempty array. -/
def decodeEntries (s : GoStr) : Option (List LogEntry × GoStr) :=
  match s with
  | 'n' :: 'u' :: 'l' :: 'l' :: r => some ([], r)
  | '[' :: ']' :: r => some ([], r)
  | '[' :: r => decodeEntriesArr (r.length + 1) r
  | _ => none

/-- Re-parse a whole `json`-format export (the encoder's trailing newline
is accepted). -/
def decodeJsonExport (s : GoStr) : Option (List LogEntry) :=
  match decodeEntries s with
  | some (es, []) => some es
  | some (es, ['\n']) => some es
  | _ => none

/-- Re-parse `ndjson` output: one serialized entry then a newline, repeated. -/
def decodeNDJSONAux : Nat → GoStr → Option (List LogEntry)
  | _, [] => some []
  | 0, _ => none
  | fuel + 1, s =>
    match decodeEntry s with
    | some (e, '\n' :: rest) =>
      match decodeNDJSONAux fuel rest with
      | some es => some (e :: es)
      | none => none
    | _ => none

/-- Re-parse a whole `ndjson`-format export. -/
def decodeNDJSON (s : GoStr) : Option (List LogEntry) :=
  decodeNDJSONAux (s.length + 1) s

/-- Body of a quoted CSV field, after the opening quote: a doubled quote
is one quote character, a lone closing quote ends the field. -/
def parseCsvQuoted : GoStr → Option (GoStr × GoStr)
  | [] => none
  | c :: r =>
    if c = '"' then
      match r with
      | '"' :: t => consF '"' (parseCsvQuoted t)
      | _ => some ([], r)
    else consF c (parseCsvQuoted r)

/-- One CSV field: quoted, or bare up to a comma or newline (a stray quote
in a bare field is an error, as for `csv.Reader` without `LazyQuotes`). -/
def parseCsvField (s : GoStr) : Option (GoStr × GoStr) :=
  match s with
  | '"' :: r => parseCsvQuoted r
  | _ =>
    let f := s.takeWhile (fun c => !(c == ',' || c == '\n'))
    if f.contains '"' then none else some (f, s.drop f.length)

/-- One CSV record: fields separated by commas, ended by a newline or the
end of input. -/
def parseCsvRecord : Nat → GoStr → Option (List GoStr × GoStr)
  | 0, _ => none
  | fuel + 1, s =>
    match parseCsvField s with
    | some (f, ',' :: r) =>
      match parseCsvRecord fuel r with
      | some (fs, r2) => some (f :: fs, r2)
      | none => none
    | some (f, '\n' :: r) => some ([f], r)
    | some (f, []) => some ([f], [])
    | _ => none

/-- All CSV records; blank lines are skipped as `csv.Reader` does. -/
def parseCsvRecords : Nat → GoStr → Option (List (List GoStr))
  | _, [] => some []
  | 0, _ => none
  | fuel + 1, '\n' :: r => parseCsvRecords fuel r
  | fuel + 1, s =>
    match parseCsvRecord (s.length + 1) s with
    | some (fs, r) =>
      match parseCsvRecords fuel r with
      | some rs => some (fs :: rs)
      | none => none
    | none => none

/-- A standard CSV read (`csv.Reader.ReadAll` with defaults, on input free
of carriage returns): parse all records and require a consistent field
count across them. -/
def parseCSV (s : GoStr) : Option (List (List GoStr)) :=
  match parseCsvRecords (s.length + 1) s with
  | some [] => some []
  | some (r :: rs) =>
    if rs.all (fun x => x.length == r.length) then some (r :: rs) else none
  | none => none

/-- Backend coordinates of a resource kind (`schema.GroupVersionResource`). -/
structure GroupVersionResource where
  group : GoStr
  version : GoStr
  resource : GoStr
deriving DecidableEq

/-- The fixed resource-kind table of `getGroupVersionResource`. -/
def resourceMap : List (GoStr × GroupVersionResource) :=
  [(gs "pods", ⟨[], gs "v1", gs "pods"⟩),
   (gs "services", ⟨[], gs "v1", gs "services"⟩),
   (gs "deployments", ⟨gs "apps", gs "v1", gs "deployments"⟩),
   (gs "namespaces", ⟨[], gs "v1", gs "namespaces"⟩),
   (gs "configmaps", ⟨[], gs "v1", gs "configmaps"⟩),
   (gs "secrets", ⟨[], gs "v1", gs "secrets"⟩),
   (gs "persistentvolumes", ⟨[], gs "v1", gs "persistentvolumes"⟩),
   (gs "persistentvolumeclaims", ⟨[], gs "v1", gs "persistentvolumeclaims"⟩),
   (gs "statefulsets", ⟨gs "apps", gs "v1", gs "statefulsets"⟩),
   (gs "daemonsets", ⟨gs "apps", gs "v1", gs "daemonsets"⟩),
   (gs "ingresses", ⟨gs "networking.k8s.io", gs "v1", gs "ingresses"⟩)]

/-- `getGroupVersionResource` from pkg/kubernetes: exact, case-sensitive
lookup in the fixed table; unknown kinds fail. -/
def getGroupVersionResource (resourceType : GoStr) : Except GoStr GroupVersionResource :=
  match resourceMap.lookup resourceType with
  | some gvr => .ok gvr
  | none => .error (gs "unsupported resource type: " ++ resourceType)

/-- The dynamic backend the client calls after resolving a kind. The
namespace argument is `some ns` for a namespaced call and `none` for a
cluster-scoped one, mirroring the two branches in the source. -/
structure DynBackend (Doc : Type) where
  get : GroupVersionResource → Option GoStr → GoStr → Except GoStr Doc
  list : GroupVersionResource → Option GoStr → Except GoStr Doc
  create : GroupVersionResource → Option GoStr → Doc → Except GoStr Doc
  delete : GroupVersionResource → Option GoStr → GoStr → Except GoStr Unit

/-- `Client.GetResource`: resolve the kind (propagating the failure
unmodified), call the backend, wrap backend errors with context. -/
def getResource (b : DynBackend Doc) (resourceType nspace name : GoStr) :
    Except GoStr Doc :=
  match getGroupVersionResource resourceType with
  | .error e => .error e
  | .ok gvr =>
    match (if nspace.isEmpty then b.get gvr none name
           else b.get gvr (some nspace) name) with
    | .error e =>
      .error (gs "failed to get " ++ resourceType ++ gs " \x27" ++ name ++ gs "\x27: " ++ e)
    | .ok r => .ok r

/-- `Client.ListResources`. -/
def listResources (b : DynBackend Doc) (resourceType nspace : GoStr) :
    Except GoStr Doc :=
  match getGroupVersionResource resourceType with
  | .error e => .error e
  | .ok gvr =>
    match (if nspace.isEmpty then b.list gvr none else b.list gvr (some nspace)) with
    | .error e => .error (gs "failed to list " ++ resourceType ++ gs ": " ++ e)
    | .ok r => .ok r

/-- `Client.CreateResource`. -/
def createResource (b : DynBackend Doc) (resourceType nspace : GoStr) (obj : Doc) :
    Except GoStr Doc :=
  match getGroupVersionResource resourceType with
  | .error e => .error e
  | .ok gvr =>
    match (if nspace.isEmpty then b.create gvr none obj
           else b.create gvr (some nspace) obj) with
    | .error e => .error (gs "failed to create " ++ resourceType ++ gs ": " ++ e)
    | .ok r => .ok r

/-- `Client.DeleteResource`. -/
def deleteResource (b : DynBackend Doc) (resourceType nspace name : GoStr) :
    Except GoStr Unit :=
  match getGroupVersionResource resourceType with
  | .error e => .error e
  | .ok gvr =>
    match (if nspace.isEmpty then b.delete gvr none name
           else b.delete gvr (some nspace) name) with
    | .error e =>
      .error (gs "failed to delete " ++ resourceType ++ gs " \x27" ++ name ++ gs "\x27: " ++ e)
    | .ok _ => .ok ()

namespace Mcp

/-- `LogOptions` of the MCP wire envelope (pkg/mcp). -/
structure CmdLogOptions where
  pod : GoStr
  container : GoStr
  since : GoStr
  tail : Int
  pattern : GoStr
  logLevel : GoStr
  format : GoStr
deriving DecidableEq

/-- An MCP command envelope; `data` is the raw JSON payload bytes and the
Go field `Namespace` is named `nspace`. -/
structure Command where
  type : GoStr
  resource : GoStr
  name : GoStr
  nspace : GoStr
  data : Option GoStr
  logOptions : Option CmdLogOptions
deriving DecidableEq

/-- An MCP response envelope; `data` is `none` for Go's nil `RawMessage`. -/
structure Response where
  success : Bool
  message : GoStr
  data : Option GoStr
  error : GoStr
deriving DecidableEq

/-- `NewSuccessResponse`; marshalling of the handler payloads is modelled
as total (callers pass already-serialized bytes), so no failure branch. -/
def NewSuccessResponse (message : GoStr) (data : Option GoStr) : Response :=
  ⟨true, message, data, []⟩

/-- `NewErrorResponse`. -/
def NewErrorResponse (e : GoStr) : Response := ⟨false, [], none, e⟩

/-- Unit multipliers of Go duration literals, in nanoseconds. -/
def durUnit : GoStr → Option (Nat × GoStr)
  | 'n' :: 's' :: r => some (1, r)
  | 'u' :: 's' :: r => some (1000, r)
  | 'm' :: 's' :: r => some (1000000, r)
  | 'm' :: r => some (60000000000, r)
  | 's' :: r => some (1000000000, r)
  | 'h' :: r => some (3600000000000, r)
  | _ => none

/-- One `<number><unit>` duration term, with an optional decimal fraction. -/
def durTerm (s : GoStr) : Option (Nat × GoStr) :=
  let ds := s.takeWhile (fun c => isDigitCh c)
  if ds.isEmpty then none
  else
    let rest := s.drop ds.length
    match rest with
    | '.' :: r2 =>
      let fs := r2.takeWhile (fun c => isDigitCh c)
      if fs.isEmpty then none
      else
        match durUnit (r2.drop fs.length) with
        | some (u, r3) =>
          some (digitsVal ds * u + digitsVal fs * u / 10 ^ fs.length, r3)
        | none => none
    | _ =>
      match durUnit rest with
      | some (u, r3) => some (digitsVal ds * u, r3)
      | none => none

/-- Sum of successive duration terms. -/
def durTerms : Nat → GoStr → Option Nat
  | _, [] => some 0
  | 0, _ => none
  | fuel + 1, s =>
    match durTerm s with
    | some (v, r) =>
      match durTerms fuel r with
      | some w => some (v + w)
      | none => none
    | none => none

/-- Go's `time.ParseDuration`: optional sign, then either the literal "0"
or one or more number-unit terms; nanoseconds as an integer. -/
def parseGoDuration (s : GoStr) : Option Int :=
  let (neg, body) :=
    match s with
    | '-' :: r => (true, r)
    | '+' :: r => (false, r)
    | _ => (false, s)
  if body = ['0'] then some 0
  else if body.isEmpty then none
  else
    match durTerms (body.length + 1) body with
    | some v => some (if neg then -(v : Int) else (v : Int))
    | none => none

/-- The handlers' shared `since` handling: try a duration first, then an
absolute RFC3339 timestamp, else fail with the invalid-parameter error. -/
def applySince (now : Timestamp) (since : GoStr) (opts : LogOptions) :
    Except GoStr LogOptions :=
  if since.isEmpty then .ok opts
  else
    match parseGoDuration since with
    | some d => .ok { opts with sinceTime := some (.relative now d) }
    | none =>
      match parseRFC3339Full since with
      | some t => .ok { opts with sinceTime := some (.absolute t) }
      | none => .error (gs "invalid \x27since\x27 parameter")

/-- The handlers' shared `tail` handling: only positive values are passed. -/
def applyTail (tail : Int) (opts : LogOptions) : LogOptions :=
  if 0 < tail then { opts with tail := some tail } else opts

/-- Everything the handlers call out to: the dynamic resource backend, the
(total) marshalling of returned documents, payload unmarshalling, the log
stream backend, and the wall clock. -/
structure Env (Doc : Type) where
  dyn : DynBackend Doc
  marshal : Doc → GoStr
  unmarshalPayload : GoStr → Except GoStr Doc
  logBackend : LogBackend
  now : Timestamp
  clock : Nat → Timestamp

/-- `handleListCommand`. -/
def handleListCommand (env : Env Doc) (cmd : Command) : Response :=
  if cmd.resource.isEmpty then NewErrorResponse (gs "resource type is required")
  else
    match listResources env.dyn cmd.resource cmd.nspace with
    | .error e => NewErrorResponse e
    | .ok docs =>
      NewSuccessResponse (gs "Successfully listed " ++ cmd.resource)
        (some (env.marshal docs))

/-- `handleGetCommand`. -/
def handleGetCommand (env : Env Doc) (cmd : Command) : Response :=
  if cmd.resource.isEmpty || cmd.name.isEmpty then
    NewErrorResponse (gs "resource type and name are required")
  else
    match getResource env.dyn cmd.resource cmd.nspace cmd.name with
    | .error e => NewErrorResponse e
    | .ok doc =>
      NewSuccessResponse
        (gs "Successfully retrieved " ++ cmd.resource ++ gs " \x27" ++ cmd.name ++ gs "\x27")
        (some (env.marshal doc))

/-- `handleCreateCommand`. -/
def handleCreateCommand (env : Env Doc) (cmd : Command) : Response :=
  match cmd.data with
  | none => NewErrorResponse (gs "resource type and data are required")
  | some payload =>
    if cmd.resource.isEmpty then
      NewErrorResponse (gs "resource type and data are required")
    else
      match env.unmarshalPayload payload with
      | .error e => NewErrorResponse (gs "invalid resource data: " ++ e)
      | .ok obj =>
        match createResource env.dyn cmd.resource cmd.nspace obj with
        | .error e => NewErrorResponse e
        | .ok created =>
          NewSuccessResponse (gs "Successfully created " ++ cmd.resource)
            (some (env.marshal created))

/-- `handleDeleteCommand`; a successful delete passes `nil` data through
`NewSuccessResponse`. -/
def handleDeleteCommand (env : Env Doc) (cmd : Command) : Response :=
  if cmd.resource.isEmpty || cmd.name.isEmpty then
    NewErrorResponse (gs "resource type and name are required")
  else
    match deleteResource env.dyn cmd.resource cmd.nspace cmd.name with
    | .error e => NewErrorResponse e
    | .ok _ =>
      NewSuccessResponse
        (gs "Successfully deleted " ++ cmd.resource ++ gs " \x27" ++ cmd.name ++ gs "\x27")
        none

/-- `handleLogsCommand`. -/
def handleLogsCommand (env : Env Doc) (cmd : Command) : Response :=
  match cmd.logOptions with
  | none => NewErrorResponse (gs "namespace and pod are required")
  | some lo =>
    if cmd.nspace.isEmpty || lo.pod.isEmpty then
      NewErrorResponse (gs "namespace and pod are required")
    else
      match applySince env.now lo.since
          ⟨cmd.nspace, lo.pod, lo.container, none, none, none, [], []⟩ with
      | .error e => NewErrorResponse e
      | .ok opts1 =>
        match GetLogs env.logBackend env.clock (applyTail lo.tail opts1) with
        | .error e => NewErrorResponse e
        | .ok entries =>
          NewSuccessResponse
            (gs "Successfully retrieved logs from pod \x27" ++ lo.pod ++ gs "\x27")
            (some (encodeEntriesJson entries))

/-- `handleSearchLogsCommand`. -/
def handleSearchLogsCommand (env : Env Doc) (cmd : Command) : Response :=
  match cmd.logOptions with
  | none => NewErrorResponse (gs "namespace and pod are required")
  | some lo =>
    if cmd.nspace.isEmpty || lo.pod.isEmpty then
      NewErrorResponse (gs "namespace and pod are required")
    else if lo.pattern.isEmpty then
      NewErrorResponse (gs "search pattern is required")
    else
      match applySince env.now lo.since
          ⟨cmd.nspace, lo.pod, lo.container, none, none, none, lo.pattern, lo.logLevel⟩ with
      | .error e => NewErrorResponse e
      | .ok opts1 =>
        match GetLogs env.logBackend env.clock (applyTail lo.tail opts1) with
        | .error e => NewErrorResponse e
        | .ok entries =>
          NewSuccessResponse
            (gs "Successfully searched logs from pod \x27" ++ lo.pod ++ gs "\x27")
            (some (encodeEntriesJson entries))

/-- `handleExportLogsCommand`; the exported bytes are wrapped in the
one-key JSON object `json.Marshal` produces for the response map. -/
def handleExportLogsCommand (env : Env Doc) (cmd : Command) : Response :=
  match cmd.logOptions with
  | none => NewErrorResponse (gs "namespace and pod are required")
  | some lo =>
    if cmd.nspace.isEmpty || lo.pod.isEmpty then
      NewErrorResponse (gs "namespace and pod are required")
    else if lo.format.isEmpty then
      NewErrorResponse (gs "export format is required")
    else
      match applySince env.now lo.since
          ⟨cmd.nspace, lo.pod, lo.container, none, none, none, lo.pattern, lo.logLevel⟩ with
      | .error e => NewErrorResponse e
      | .ok opts1 =>
        match GetLogs env.logBackend env.clock (applyTail lo.tail opts1) with
        | .error e => NewErrorResponse e
        | .ok entries =>
          match ExportLogs entries lo.format with
          | .error e => NewErrorResponse e
          | .ok out =>
            NewSuccessResponse
              (gs "Successfully exported logs from pod \x27" ++ lo.pod ++
                gs "\x27 in " ++ lo.format ++ gs " format")
              (some ('\x7b' :: (jsonQuote (gs "exported_logs") ++ ':' ::
                (jsonQuote out ++ ['\x7d']))))

/-- `HandleCommand` from pkg/mcp: route on the command kind, else fail
with the unsupported-command error. A total function: the dispatcher
cannot panic or abort. -/
def handleCommand (env : Env Doc) (cmd : Command) : Response :=
  if cmd.type = gs "list" then handleListCommand env cmd
  else if cmd.type = gs "get" then handleGetCommand env cmd
  else if cmd.type = gs "create" then handleCreateCommand env cmd
  else if cmd.type = gs "delete" then handleDeleteCommand env cmd
  else if cmd.type = gs "logs" then handleLogsCommand env cmd
  else if cmd.type = gs "search_logs" then handleSearchLogsCommand env cmd
  else if cmd.type = gs "export_logs" then handleExportLogsCommand env cmd
  else NewErrorResponse (gs "unsupported command type: " ++ cmd.type)

/-- The seven supported command kinds. -/
def supportedCommandTypes : List GoStr :=
  [gs "list", gs "get", gs "create", gs "delete",
   gs "logs", gs "search_logs", gs "export_logs"]

/-- The validation table of spec section 4.5, as a predicate: the command
is of the given kind and at least one of its required fields is missing. -/
def specRequiredMissing (cmd : Command) : Prop :=
  (cmd.type = gs "list" ∧ cmd.resource = []) ∨
  (cmd.type = gs "get" ∧ (cmd.resource = [] ∨ cmd.name = [])) ∨
  (cmd.type = gs "create" ∧ (cmd.resource = [] ∨ cmd.data = none)) ∨
  (cmd.type = gs "delete" ∧ (cmd.resource = [] ∨ cmd.name = [])) ∨
  (cmd.type = gs "logs" ∧
    (cmd.nspace = [] ∨ (cmd.logOptions.map (fun lo => lo.pod)).getD [] = [])) ∨
  (cmd.type = gs "search_logs" ∧
    (cmd.nspace = [] ∨ (cmd.logOptions.map (fun lo => lo.pod)).getD [] = [] ∨
     (cmd.logOptions.map (fun lo => lo.pattern)).getD [] = [])) ∨
  (cmd.type = gs "export_logs" ∧
    (cmd.nspace = [] ∨ (cmd.logOptions.map (fun lo => lo.pod)).getD [] = [] ∨
     (cmd.logOptions.map (fun lo => lo.format)).getD [] = []))

instance : DecidablePred specRequiredMissing := fun cmd => by
  unfold specRequiredMissing
  exact inferInstance

/-- Exactly one of the data and error fields is populated. -/
def exactlyOnePopulated (r : Response) : Prop :=
  (r.data ≠ none ∧ r.error = []) ∨ (r.data = none ∧ r.error ≠ [])

instance : DecidablePred exactlyOnePopulated := fun r => by
  unfold exactlyOnePopulated
  exact inferInstance

end Mcp

/-- The retention test of the claim about the retrieval loop: keep an entry
when the pattern is unset or matches the message, and the level filter is
unset or equals the entry's level case-insensitively. -/
def keepEntry (re? : Option Re.Regex) (lvl : GoStr) (e : LogEntry) : Bool :=
  (match re? with
   | none => true
   | some r => Re.matchString r e.message) &&
  (lvl.isEmpty || eqFold e.logLevel lvl)

/-- Parse every line, numbering the `time.Now()` calls from `i`. -/
def parseLinesFrom (pod container nspace : GoStr) (clock : Nat → Timestamp) :
    Nat → List GoStr → List LogEntry
  | _, [] => []
  | i, l :: ls =>
    parseLogEntry l pod container nspace (clock i) ::
      parseLinesFrom pod container nspace clock (i + 1) ls

/-- The fields of an entry contain no carriage return (the inputs on which
the simplified CSV reader model agrees with Go's, whose reader folds CRLF). -/
def noCR (e : LogEntry) : Prop :=
  ('\r' ∉ e.pod) ∧ ('\r' ∉ e.container) ∧ ('\r' ∉ e.nspace) ∧
  ('\r' ∉ e.logLevel) ∧ ('\r' ∉ e.message)

instance : DecidablePred noCR := fun e => by
  unfold noCR
  exact inferInstance

/-- The Unix epoch instant, used as a concrete wall clock in witnesses. -/
def epochTs : Timestamp := ⟨1970, 1, 1, 0, 0, 0, 0, 0⟩

/-- A dynamic backend on the trivial document type whose calls all succeed. -/
def unitDyn : DynBackend Unit :=
  ⟨fun _ _ _ => .ok (), fun _ _ => .ok (), fun _ _ _ => .ok (), fun _ _ _ => .ok ()⟩

/-- A concrete handler environment over the trivial document type. -/
def unitEnv : Mcp.Env Unit :=
  ⟨unitDyn, fun _ => gs "\x7b\x7d", fun _ => .ok (), constLogBackend [], epochTs,
   fun _ => epochTs⟩

/-- A second concrete environment, differing from `unitEnv` in its backend
answers, used to witness backend-independence. -/
def unitEnvB : Mcp.Env Unit :=
  ⟨⟨fun _ _ _ => .error (gs "boom"), fun _ _ => .error (gs "boom"),
    fun _ _ _ => .error (gs "boom"), fun _ _ _ => .error (gs "boom")⟩,
   fun _ => gs "[]", fun _ => .error (gs "boom"),
   constLogBackend (gs "x INFO\n"), epochTs, fun _ => epochTs⟩

/-- A delete command whose required fields are all present. -/
def deleteCmd : Mcp.Command := ⟨gs "delete", gs "pods", gs "x", gs "default", none, none⟩

/-- A sample entry whose message embeds a comma and a quote character. -/
def commaQuoteEntry : LogEntry :=
  ⟨⟨2024, 1, 1, 10, 0, 0, 0, 0⟩, gs "a,b\"c", gs "p1", gs "c1", gs "ns1", gs "INFO"⟩

/-- A sample entry with an empty level and a nonzero sub-second fraction. -/
def fracEntry : LogEntry :=
  ⟨⟨1999, 12, 31, 23, 59, 59, 123450000, -330⟩, gs "", gs "p2", [], gs "ns2", []⟩

/-- A get command with its name field missing. -/
def getMissingCmd : Mcp.Command := ⟨gs "get", gs "pods", [], [], none, none⟩

/-- A command of an unsupported kind. -/
def badTypeCmd : Mcp.Command := ⟨gs "frobnicate", [], [], [], none, none⟩

/-- Log options with no filters, for witnesses. -/
def defaultLogOpts : LogOptions := ⟨gs "default", gs "p", [], none, none, none, [], []⟩

/-- Log options whose pattern is the invalid "(", for witnesses. -/
def invalidPatternOpts : LogOptions := ⟨gs "default", gs "p", [], none, none, none, gs "(", []⟩

/-- Log options whose pattern is "fail", for witnesses. -/
def failPatternOpts : LogOptions := ⟨gs "default", gs "p", [], none, none, none, gs "fail", []⟩

theorem ne_nil_left {a : GoStr} (h : a ≠ []) (b : GoStr) : a ++ b ≠ [] := by
  intro hab
  exact h (List.append_eq_nil.mp hab).1

theorem getGVR_error_ne {k e : GoStr}
    (h : getGroupVersionResource k = .error e) : e ≠ [] := by
  unfold getGroupVersionResource at h
  split at h
  · exact absurd h (by simp)
  · injection h with h1
    subst h1
    exact ne_nil_left (by decide) k

theorem getResource_error_ne {Doc : Type} {b : DynBackend Doc} {k ns n e : GoStr}
    (h : getResource b k ns n = .error e) : e ≠ [] := by
  unfold getResource at h
  split at h
  · next e1 heq =>
    injection h with h1
    subst h1
    exact getGVR_error_ne heq
  · split at h
    · injection h with h1
      subst h1
      exact ne_nil_left
        (ne_nil_left (ne_nil_left (ne_nil_left (ne_nil_left (by decide) _) _) _) _) _
    · exact absurd h (by simp)

theorem listResources_error_ne {Doc : Type} {b : DynBackend Doc} {k ns e : GoStr}
    (h : listResources b k ns = .error e) : e ≠ [] := by
  unfold listResources at h
  split at h
  · next e1 heq =>
    injection h with h1
    subst h1
    exact getGVR_error_ne heq
  · split at h
    · injection h with h1
      subst h1
      exact ne_nil_left (ne_nil_left (ne_nil_left (by decide) _) _) _
    · exact absurd h (by simp)

theorem createResource_error_ne {Doc : Type} {b : DynBackend Doc} {k ns : GoStr}
    {obj : Doc} {e : GoStr}
    (h : createResource b k ns obj = .error e) : e ≠ [] := by
  unfold createResource at h
  split at h
  · next e1 heq =>
    injection h with h1
    subst h1
    exact getGVR_error_ne heq
  · split at h
    · injection h with h1
      subst h1
      exact ne_nil_left (ne_nil_left (ne_nil_left (by decide) _) _) _
    · exact absurd h (by simp)

theorem deleteResource_error_ne {Doc : Type} {b : DynBackend Doc} {k ns n e : GoStr}
    (h : deleteResource b k ns n = .error e) : e ≠ [] := by
  unfold deleteResource at h
  split at h
  · next e1 heq =>
    injection h with h1
    subst h1
    exact getGVR_error_ne heq
  · split at h
    · injection h with h1
      subst h1
      exact ne_nil_left
        (ne_nil_left (ne_nil_left (ne_nil_left (ne_nil_left (by decide) _) _) _) _) _
    · exact absurd h (by simp)

theorem compiledPattern_error_ne {p e : GoStr}
    (h : compiledPattern p = .error e) : e ≠ [] := by
  unfold compiledPattern at h
  split at h
  · exact absurd h (by simp)
  · split at h
    · exact absurd h (by simp)
    · injection h with h1
      subst h1
      decide

theorem getLogsFromStream_error_ne {opts : LogOptions} {clock : Nat → Timestamp}
    {stream e : GoStr}
    (h : getLogsFromStream opts clock stream = .error e) : e ≠ [] := by
  unfold getLogsFromStream at h
  split at h
  · next e1 heq =>
    injection h with h1
    subst h1
    exact compiledPattern_error_ne heq
  · exact absurd h (by simp)

theorem GetLogs_error_ne {lb : LogBackend} {clock : Nat → Timestamp}
    {opts : LogOptions} {e : GoStr}
    (h : GetLogs lb clock opts = .error e) : e ≠ [] := by
  unfold GetLogs at h
  split at h
  · injection h with h1
    subst h1
    exact ne_nil_left (by decide) _
  · exact getLogsFromStream_error_ne h

theorem applySince_error_ne {now : Timestamp} {since e : GoStr} {opts : LogOptions}
    (h : Mcp.applySince now since opts = .error e) : e ≠ [] := by
  unfold Mcp.applySince at h
  split at h
  · exact absurd h (by simp)
  · split at h
    · exact absurd h (by simp)
    · split at h
      · exact absurd h (by simp)
      · injection h with h1
        subst h1
        decide

theorem ExportLogs_error_ne {es : List LogEntry} {format e : GoStr}
    (h : ExportLogs es format = .error e) : e ≠ [] := by
  unfold ExportLogs at h
  split at h
  · exact absurd h (by simp)
  · split at h
    · exact absurd h (by simp)
    · split at h
      · exact absurd h (by simp)
      · split at h
        · exact absurd h (by simp)
        · injection h with h1
          subst h1
          exact ne_nil_left (by decide) _

theorem handleCommand_shape {Doc : Type} (env : Mcp.Env Doc) (cmd : Mcp.Command) :
    (∃ e, e ≠ ([] : GoStr) ∧ Mcp.handleCommand env cmd = Mcp.NewErrorResponse e) ∨
    (∃ m d, Mcp.handleCommand env cmd = Mcp.NewSuccessResponse m (some d)) ∨
    (cmd.type = gs "delete" ∧
      ∃ m, Mcp.handleCommand env cmd = Mcp.NewSuccessResponse m none) := by
  unfold Mcp.handleCommand
  split_ifs with h1 h2 h3 h4 h5 h6 h7
  · unfold Mcp.handleListCommand
    split_ifs with hr
    · exact Or.inl ⟨_, by decide, rfl⟩
    · split
      · next e heq => exact Or.inl ⟨e, listResources_error_ne heq, rfl⟩
      · exact Or.inr (Or.inl ⟨_, _, rfl⟩)
  · unfold Mcp.handleGetCommand
    split_ifs with hr
    · exact Or.inl ⟨_, by decide, rfl⟩
    · split
      · next e heq => exact Or.inl ⟨e, getResource_error_ne heq, rfl⟩
      · exact Or.inr (Or.inl ⟨_, _, rfl⟩)
  · unfold Mcp.handleCreateCommand
    split
    · exact Or.inl ⟨_, by decide, rfl⟩
    · split_ifs with hr
      · exact Or.inl ⟨_, by decide, rfl⟩
      · split
        · exact Or.inl ⟨_, ne_nil_left (by decide) _, rfl⟩
        · split
          · next e heq => exact Or.inl ⟨e, createResource_error_ne heq, rfl⟩
          · exact Or.inr (Or.inl ⟨_, _, rfl⟩)
  · unfold Mcp.handleDeleteCommand
    split_ifs with hr
    · exact Or.inl ⟨_, by decide, rfl⟩
    · split
      · next e heq => exact Or.inl ⟨e, deleteResource_error_ne heq, rfl⟩
      · exact Or.inr (Or.inr ⟨h4, _, rfl⟩)
  · unfold Mcp.handleLogsCommand
    split
    · exact Or.inl ⟨_, by decide, rfl⟩
    · split_ifs with hr
      · exact Or.inl ⟨_, by decide, rfl⟩
      · split
        · next e heq => exact Or.inl ⟨e, applySince_error_ne heq, rfl⟩
        · split
          · next e heq => exact Or.inl ⟨e, GetLogs_error_ne heq, rfl⟩
          · exact Or.inr (Or.inl ⟨_, _, rfl⟩)
  · unfold Mcp.handleSearchLogsCommand
    split
    · exact Or.inl ⟨_, by decide, rfl⟩
    · split_ifs with hr hp
      · exact Or.inl ⟨_, by decide, rfl⟩
      · exact Or.inl ⟨_, by decide, rfl⟩
      · split
        · next e heq => exact Or.inl ⟨e, applySince_error_ne heq, rfl⟩
        · split
          · next e heq => exact Or.inl ⟨e, GetLogs_error_ne heq, rfl⟩
          · exact Or.inr (Or.inl ⟨_, _, rfl⟩)
  · unfold Mcp.handleExportLogsCommand
    split
    · exact Or.inl ⟨_, by decide, rfl⟩
    · split_ifs with hr hp
      · exact Or.inl ⟨_, by decide, rfl⟩
      · exact Or.inl ⟨_, by decide, rfl⟩
      · split
        · next e heq => exact Or.inl ⟨e, applySince_error_ne heq, rfl⟩
        · split
          · next e heq => exact Or.inl ⟨e, GetLogs_error_ne heq, rfl⟩
          · split
            · next e heq => exact Or.inl ⟨e, ExportLogs_error_ne heq, rfl⟩
            · exact Or.inr (Or.inl ⟨_, _, rfl⟩)
  · exact Or.inl ⟨_, ne_nil_left (by decide) _, rfl⟩

/-- C2, counterexample: the response of a successful delete is a success
envelope in which neither `data` nor `error` is populated, so the claimed
exactly-one invariant fails on it. -/
theorem claim2_counterexample :
    (Mcp.handleCommand unitEnv deleteCmd).success = true ∧
    ¬ Mcp.exactlyOnePopulated (Mcp.handleCommand unitEnv deleteCmd) := by
  constructor
  · rfl
  · decide

/-- C2, amended: in every response, `success=false` forces a non-empty
error and absent data, a success response has an empty error, and the only
responses violating the exactly-one population invariant are success
responses of the `delete` kind, which populate neither field. -/
theorem claim2_response_population {Doc : Type} (env : Mcp.Env Doc) (cmd : Mcp.Command) :
    ((Mcp.handleCommand env cmd).success = false →
      (Mcp.handleCommand env cmd).error ≠ [] ∧ (Mcp.handleCommand env cmd).data = none) ∧
    ((Mcp.handleCommand env cmd).success = true → (Mcp.handleCommand env cmd).error = []) ∧
    (¬ Mcp.exactlyOnePopulated (Mcp.handleCommand env cmd) →
      (Mcp.handleCommand env cmd).success = true ∧
      (Mcp.handleCommand env cmd).data = none ∧
      (Mcp.handleCommand env cmd).error = [] ∧ cmd.type = gs "delete") := by
  rcases handleCommand_shape env cmd with ⟨e, hne, heq⟩ | ⟨m, d, heq⟩ | ⟨ht, m, heq⟩ <;>
    rw [heq]
  · refine ⟨fun _ => ⟨hne, rfl⟩, fun hs => by simp [Mcp.NewErrorResponse] at hs, fun hno => ?_⟩
    exact absurd (Or.inr ⟨rfl, hne⟩) hno
  · refine ⟨fun hs => by simp [Mcp.NewSuccessResponse] at hs, fun _ => rfl, fun hno => ?_⟩
    exact absurd (Or.inl ⟨by simp [Mcp.NewSuccessResponse], rfl⟩) hno
  · exact ⟨fun hs => by simp [Mcp.NewSuccessResponse] at hs, fun _ => rfl,
      fun _ => ⟨rfl, rfl, rfl, ht⟩⟩

/-- C2, witness for the amended theorem: at a command of unsupported kind
the dispatcher's failure response carries a non-empty error and no data. -/
theorem claim2_witness :
    (Mcp.handleCommand unitEnv badTypeCmd).error ≠ [] ∧
    (Mcp.handleCommand unitEnv badTypeCmd).data = none :=
  (claim2_response_population unitEnv badTypeCmd).1 (by decide)

/-- C9: a command whose kind is not among the seven supported ones gets the
unsupported-command error response; and every response the (total, hence
non-panicking) dispatcher produces is either a success envelope with empty
error or a failure envelope with non-empty error. -/
theorem claim9_unsupported_and_total {Doc : Type} (env : Mcp.Env Doc) (cmd : Mcp.Command) :
    (cmd.type ∉ Mcp.supportedCommandTypes →
      Mcp.handleCommand env cmd =
        Mcp.NewErrorResponse (gs "unsupported command type: " ++ cmd.type)) ∧
    ((Mcp.handleCommand env cmd).success = true ∧ (Mcp.handleCommand env cmd).error = [] ∨
     (Mcp.handleCommand env cmd).success = false ∧ (Mcp.handleCommand env cmd).error ≠ []) := by
  constructor
  · intro hmem
    simp only [Mcp.supportedCommandTypes, List.mem_cons, List.not_mem_nil, or_false,
      not_or] at hmem
    obtain ⟨n1, n2, n3, n4, n5, n6, n7⟩ := hmem
    unfold Mcp.handleCommand
    rw [if_neg n1, if_neg n2, if_neg n3, if_neg n4, if_neg n5, if_neg n6, if_neg n7]
  · rcases handleCommand_shape env cmd with ⟨e, hne, heq⟩ | ⟨m, d, heq⟩ | ⟨ht, m, heq⟩ <;>
      rw [heq]
    · exact Or.inr ⟨rfl, hne⟩
    · exact Or.inl ⟨rfl, rfl⟩
    · exact Or.inl ⟨rfl, rfl⟩

/-- C9, witness: a concrete unsupported command kind gets the
unsupported-command error response. -/
theorem claim9_witness :
    Mcp.handleCommand unitEnv badTypeCmd =
      Mcp.NewErrorResponse (gs "unsupported command type: " ++ badTypeCmd.type) :=
  (claim9_unsupported_and_total unitEnv badTypeCmd).1 (by decide)

theorem errResp_error_ne {e : GoStr} (h : e ≠ []) :
    (Mcp.NewErrorResponse e).error ≠ [] := h

/-- C3: a supported command missing a required field per the spec's
validation table gets an invalid-argument error response that is identical
for every backend environment — the ResourceStore and LogPipeline are
never consulted. -/
theorem claim3_missing_required_fields {Doc : Type} (env envB : Mcp.Env Doc)
    (cmd : Mcp.Command) (hmiss : Mcp.specRequiredMissing cmd) :
    Mcp.handleCommand env cmd = Mcp.handleCommand envB cmd ∧
    (Mcp.handleCommand env cmd).success = false ∧
    (Mcp.handleCommand env cmd).error ≠ [] ∧
    (Mcp.handleCommand env cmd).data = none := by
  unfold Mcp.handleCommand Mcp.handleListCommand Mcp.handleGetCommand
    Mcp.handleCreateCommand Mcp.handleDeleteCommand Mcp.handleLogsCommand
    Mcp.handleSearchLogsCommand Mcp.handleExportLogsCommand
  rcases hmiss with ⟨ht, hm⟩ | ⟨ht, hm⟩ | ⟨ht, hm⟩ | ⟨ht, hm⟩ | ⟨ht, hm⟩ |
    ⟨ht, hm⟩ | ⟨ht, hm⟩
  · simp only [ht, hm]
    exact ⟨rfl, rfl, errResp_error_ne (by decide), rfl⟩
  · simp only [ht]
    rcases hm with hm | hm
    · simp only [hm]
      exact ⟨rfl, rfl, errResp_error_ne (by decide), rfl⟩
    · simp only [hm]
      cases hres : cmd.resource <;>
        exact ⟨rfl, rfl, errResp_error_ne (by decide), rfl⟩
  · simp only [ht]
    rcases hm with hm | hm
    · simp only [hm]
      cases hd : cmd.data <;>
        exact ⟨rfl, rfl, errResp_error_ne (by decide), rfl⟩
    · simp only [hm]
      exact ⟨rfl, rfl, errResp_error_ne (by decide), rfl⟩
  · simp only [ht]
    rcases hm with hm | hm
    · simp only [hm]
      exact ⟨rfl, rfl, errResp_error_ne (by decide), rfl⟩
    · simp only [hm]
      cases hres : cmd.resource <;>
        exact ⟨rfl, rfl, errResp_error_ne (by decide), rfl⟩
  · simp only [ht]
    cases hlo : cmd.logOptions with
    | none =>
      simp only [hlo]
      exact ⟨rfl, rfl, errResp_error_ne (by decide), rfl⟩
    | some lo =>
      rw [hlo] at hm
      simp only [Option.map_some', Option.getD_some] at hm
      simp only [hlo]
      rcases hm with hm | hm
      · simp only [hm]
        exact ⟨rfl, rfl, errResp_error_ne (by decide), rfl⟩
      · simp only [hm]
        cases hns : cmd.nspace <;>
          exact ⟨rfl, rfl, errResp_error_ne (by decide), rfl⟩
  · simp only [ht]
    cases hlo : cmd.logOptions with
    | none =>
      simp only [hlo]
      exact ⟨rfl, rfl, errResp_error_ne (by decide), rfl⟩
    | some lo =>
      rw [hlo] at hm
      simp only [Option.map_some', Option.getD_some] at hm
      simp only [hlo]
      rcases hm with hm | hm | hm
      · simp only [hm]
        exact ⟨rfl, rfl, errResp_error_ne (by decide), rfl⟩
      · simp only [hm]
        cases hns : cmd.nspace <;>
          exact ⟨rfl, rfl, errResp_error_ne (by decide), rfl⟩
      · simp only [hm]
        cases hns : cmd.nspace with
        | nil => exact ⟨rfl, rfl, errResp_error_ne (by decide), rfl⟩
        | cons c cs =>
          cases hp : lo.pod <;>
            exact ⟨rfl, rfl, errResp_error_ne (by decide), rfl⟩
  · simp only [ht]
    cases hlo : cmd.logOptions with
    | none =>
      simp only [hlo]
      exact ⟨rfl, rfl, errResp_error_ne (by decide), rfl⟩
    | some lo =>
      rw [hlo] at hm
      simp only [Option.map_some', Option.getD_some] at hm
      simp only [hlo]
      rcases hm with hm | hm | hm
      · simp only [hm]
        exact ⟨rfl, rfl, errResp_error_ne (by decide), rfl⟩
      · simp only [hm]
        cases hns : cmd.nspace <;>
          exact ⟨rfl, rfl, errResp_error_ne (by decide), rfl⟩
      · simp only [hm]
        cases hns : cmd.nspace with
        | nil => exact ⟨rfl, rfl, errResp_error_ne (by decide), rfl⟩
        | cons c cs =>
          cases hp : lo.pod <;>
            exact ⟨rfl, rfl, errResp_error_ne (by decide), rfl⟩

/-- C3, witness: a get command missing its name is rejected identically
under two different backend environments. -/
theorem claim3_witness :
    Mcp.handleCommand unitEnv getMissingCmd = Mcp.handleCommand unitEnvB getMissingCmd ∧
    (Mcp.handleCommand unitEnv getMissingCmd).success = false ∧
    (Mcp.handleCommand unitEnv getMissingCmd).error ≠ [] ∧
    (Mcp.handleCommand unitEnv getMissingCmd).data = none :=
  claim3_missing_required_fields unitEnv unitEnvB getMissingCmd
    (Or.inr (Or.inl ⟨rfl, Or.inr rfl⟩))

/-- C7: kind resolution is an exact lookup in the fixed table: "pods"
resolves to the (group "", version "v1", resource "pods") triple, and a
kind outside the table fails with the unsupported-resource error, which
each of the four resource operations propagates unmodified. -/
theorem claim7_resolve_fixed_table :
    getGroupVersionResource (gs "pods") = .ok ⟨[], gs "v1", gs "pods"⟩ ∧
    ∀ (k : GoStr), resourceMap.lookup k = none →
      ∀ {Doc : Type} (b : DynBackend Doc) (ns name : GoStr) (obj : Doc),
        getGroupVersionResource k = .error (gs "unsupported resource type: " ++ k) ∧
        getResource b k ns name = .error (gs "unsupported resource type: " ++ k) ∧
        listResources b k ns = .error (gs "unsupported resource type: " ++ k) ∧
        createResource b k ns obj = .error (gs "unsupported resource type: " ++ k) ∧
        deleteResource b k ns name = .error (gs "unsupported resource type: " ++ k) := by
  constructor
  · rfl
  · intro k hk Doc b ns name obj
    have hg : getGroupVersionResource k = .error (gs "unsupported resource type: " ++ k) := by
      unfold getGroupVersionResource
      rw [hk]
    refine ⟨hg, ?_, ?_, ?_, ?_⟩
    · unfold getResource
      rw [hg]
    · unfold listResources
      rw [hg]
    · unfold createResource
      rw [hg]
    · unfold deleteResource
      rw [hg]

/-- C7, witness: the kind "not-a-kind" is rejected by resolution and by
each operation, with the same error. -/
theorem claim7_witness :
    getGroupVersionResource (gs "not-a-kind") =
      .error (gs "unsupported resource type: " ++ gs "not-a-kind") ∧
    getResource unitDyn (gs "not-a-kind") (gs "default") (gs "x") =
      .error (gs "unsupported resource type: " ++ gs "not-a-kind") ∧
    listResources unitDyn (gs "not-a-kind") (gs "default") =
      .error (gs "unsupported resource type: " ++ gs "not-a-kind") ∧
    createResource unitDyn (gs "not-a-kind") (gs "default") () =
      .error (gs "unsupported resource type: " ++ gs "not-a-kind") ∧
    deleteResource unitDyn (gs "not-a-kind") (gs "default") (gs "x") =
      .error (gs "unsupported resource type: " ++ gs "not-a-kind") :=
  (claim7_resolve_fixed_table.2 (gs "not-a-kind") (by decide) unitDyn
    (gs "default") (gs "x") ())

/-- C1, behavior at the failing input: the extracted ISO-8601 prefix has no
zone suffix, so the RFC3339 parse of the match always fails and the entry
keeps the wall clock `now` — the spec's expected timestamp
2024-01-01T10:00:00Z is never produced; the level extraction does yield
"INFO" and "ERROR" as claimed. -/
theorem claim1_wall_clock_kept (now : Timestamp) (pod container nspace : GoStr) :
    parseLogEntry (gs "2024-01-01T10:00:00 INFO starting") pod container nspace now =
      ⟨now, gs "2024-01-01T10:00:00 INFO starting", pod, container, nspace, gs "INFO"⟩ ∧
    parseLogEntry (gs "no timestamp here ERROR failed") pod container nspace now =
      ⟨now, gs "no timestamp here ERROR failed", pod, container, nspace, gs "ERROR"⟩ :=
  ⟨rfl, rfl⟩

/-- C4: when the pattern is syntactically invalid (in the modelled RE2
fragment), retrieval fails with the invalid-pattern error for every stream
content, so no line is read and no partial sequence is returned. -/
theorem claim4_invalid_pattern_fail_fast (opts : LogOptions) (clock : Nat → Timestamp)
    (hne : opts.pattern ≠ []) (hbad : Re.compile opts.pattern = none) :
    ∀ stream : GoStr,
      GetLogs (constLogBackend stream) clock opts = .error (gs "invalid regex pattern") := by
  intro stream
  have h1 : compiledPattern opts.pattern = .error (gs "invalid regex pattern") := by
    unfold compiledPattern
    rw [if_neg (fun h => hne (List.isEmpty_iff.mp h)), hbad]
  show getLogsFromStream opts clock stream = _
  unfold getLogsFromStream
  rw [h1]

/-- C4, witness: the unbalanced pattern "(" fails a concrete retrieval
before any line of a non-empty stream is consumed. -/
theorem claim4_witness :
    GetLogs (constLogBackend (gs "a INFO\nfail\n")) (fun _ => epochTs) invalidPatternOpts =
      .error (gs "invalid regex pattern") :=
  claim4_invalid_pattern_fail_fast invalidPatternOpts (fun _ => epochTs)
    (by decide) (by decide) (gs "a INFO\nfail\n")

theorem completeLinesAux_cons_ne (acc : GoStr) (c : Char) (rest : GoStr)
    (hc : c ≠ '\n') :
    completeLinesAux acc (c :: rest) = completeLinesAux (c :: acc) rest := by
  show (if c = '\n' then (acc.reverse ++ ['\n']) :: completeLinesAux [] rest
        else completeLinesAux (c :: acc) rest) = _
  rw [if_neg hc]

theorem completeLinesAux_no_newline (v : GoStr) (hv : '\n' ∉ v) :
    ∀ acc, completeLinesAux acc v = [] := by
  induction v with
  | nil => intro acc; rfl
  | cons c rest ih =>
    intro acc
    have hc : c ≠ '\n' := by
      intro h
      exact hv (h ▸ List.mem_cons_self c rest)
    have hrest : '\n' ∉ rest := fun h => hv (List.mem_cons_of_mem c h)
    rw [completeLinesAux_cons_ne acc c rest hc]
    exact ih hrest _

theorem completeLinesAux_append_no_newline (u v : GoStr) (hv : '\n' ∉ v) :
    ∀ acc, completeLinesAux acc (u ++ v) = completeLinesAux acc u := by
  induction u with
  | nil =>
    intro acc
    rw [List.nil_append]
    exact completeLinesAux_no_newline v hv acc
  | cons c rest ih =>
    intro acc
    rw [List.cons_append]
    by_cases hc : c = '\n'
    · subst hc
      show (if ('\n' : Char) = '\n' then
              (acc.reverse ++ ['\n']) :: completeLinesAux [] (rest ++ v)
            else completeLinesAux ('\n' :: acc) (rest ++ v)) =
        (if ('\n' : Char) = '\n' then
              (acc.reverse ++ ['\n']) :: completeLinesAux [] rest
            else completeLinesAux ('\n' :: acc) rest)
      rw [if_pos rfl, if_pos rfl, ih []]
    · rw [completeLinesAux_cons_ne acc c (rest ++ v) hc,
        completeLinesAux_cons_ne acc c rest hc]
      exact ih _

/-- C10: appending newline-free trailing data to a stream does not change
the retrieval result — the final unterminated line is silently dropped at
end of stream, and only newline-terminated lines produce entries. -/
theorem claim10_partial_final_line_dropped (opts : LogOptions)
    (clock : Nat → Timestamp) (u v : GoStr) (hv : '\n' ∉ v) :
    GetLogs (constLogBackend (u ++ v)) clock opts =
      GetLogs (constLogBackend u) clock opts := by
  show getLogsFromStream opts clock (u ++ v) = getLogsFromStream opts clock u
  unfold getLogsFromStream completeLines
  rw [completeLinesAux_append_no_newline u v hv []]

/-- C10, witness: a stream ending in the unterminated segment "partial"
yields the same entries as the stream without it. -/
theorem claim10_witness :
    GetLogs (constLogBackend (gs "a\n" ++ gs "partial")) (fun _ => epochTs) defaultLogOpts =
      GetLogs (constLogBackend (gs "a\n")) (fun _ => epochTs) defaultLogOpts :=
  claim10_partial_final_line_dropped defaultLogOpts (fun _ => epochTs)
    (gs "a\n") (gs "partial") (by decide)

theorem keepEntry_eq (re? : Option Re.Regex) (lvl : GoStr) (e : LogEntry) :
    keepEntry re? lvl e =
      (!(match re? with
         | some r => !Re.matchString r e.message
         | none => false) &&
       !(!lvl.isEmpty && !eqFold e.logLevel lvl)) := by
  unfold keepEntry
  cases re? with
  | none =>
    cases hL : lvl.isEmpty <;> cases hE : eqFold e.logLevel lvl <;> rfl
  | some r =>
    show (Re.matchString r e.message && (lvl.isEmpty || eqFold e.logLevel lvl)) =
      (!(!Re.matchString r e.message) && !(!lvl.isEmpty && !eqFold e.logLevel lvl))
    cases hM : Re.matchString r e.message <;> cases hL : lvl.isEmpty <;>
      cases hE : eqFold e.logLevel lvl <;> rfl

theorem logLoop_cons (re? : Option Re.Regex) (lvl pod container nspace : GoStr)
    (clock : Nat → Timestamp) (l : GoStr) (rest : List GoStr) (i : Nat) :
    logLoop re? lvl pod container nspace clock (l :: rest) i =
      (if (match re? with
           | some r =>
             !Re.matchString r (parseLogEntry l pod container nspace (clock i)).message
           | none => false) = true then
         logLoop re? lvl pod container nspace clock rest (i + 1)
       else if (!lvl.isEmpty &&
           !eqFold (parseLogEntry l pod container nspace (clock i)).logLevel lvl) = true then
         logLoop re? lvl pod container nspace clock rest (i + 1)
       else parseLogEntry l pod container nspace (clock i) ::
         logLoop re? lvl pod container nspace clock rest (i + 1)) := rfl

theorem logLoop_eq_filter (re? : Option Re.Regex) (lvl pod container nspace : GoStr)
    (clock : Nat → Timestamp) :
    ∀ (ls : List GoStr) (i : Nat),
      logLoop re? lvl pod container nspace clock ls i =
        (parseLinesFrom pod container nspace clock i ls).filter (keepEntry re? lvl) := by
  intro ls
  induction ls with
  | nil => intro i; rfl
  | cons l rest ih =>
    intro i
    have hp : parseLinesFrom pod container nspace clock i (l :: rest) =
        parseLogEntry l pod container nspace (clock i) ::
          parseLinesFrom pod container nspace clock (i + 1) rest := rfl
    rw [logLoop_cons, hp, List.filter_cons, keepEntry_eq]
    cases hA : (match re? with
                | some r =>
                  !Re.matchString r (parseLogEntry l pod container nspace (clock i)).message
                | none => false) with
    | true => exact ih (i + 1)
    | false =>
      cases hB : (!lvl.isEmpty &&
          !eqFold (parseLogEntry l pod container nspace (clock i)).logLevel lvl) with
      | true => exact ih (i + 1)
      | false =>
        exact congrArg
          (fun x => parseLogEntry l pod container nspace (clock i) :: x) (ih (i + 1))

/-- C8: whenever pattern compilation succeeds (including the unset-pattern
case `re? = none`), the retrieval loop returns exactly the parsed entries
that pass both the pattern test and the case-insensitive level test, in
stream order — a filter over the parsed lines. -/
theorem claim8_loop_is_filter (opts : LogOptions) (clock : Nat → Timestamp)
    (stream : GoStr) (re? : Option Re.Regex)
    (hok : compiledPattern opts.pattern = .ok re?) :
    getLogsFromStream opts clock stream =
      .ok ((parseLinesFrom opts.pod opts.container opts.nspace clock 0
        (completeLines stream)).filter (keepEntry re? opts.logLevel)) := by
  unfold getLogsFromStream
  rw [hok]
  exact congrArg Except.ok
    (logLoop_eq_filter re? opts.logLevel opts.pod opts.container opts.nspace clock
      (completeLines stream) 0)

/-- C8, witness: with the compiled pattern "fail" and no level filter, a
concrete two-line stream is filtered to its matching parsed entries. -/
theorem claim8_witness :
    getLogsFromStream failPatternOpts (fun _ => epochTs) (gs "ok line\nfail line\n") =
      .ok ((parseLinesFrom failPatternOpts.pod failPatternOpts.container
        failPatternOpts.nspace (fun _ => epochTs) 0
        (completeLines (gs "ok line\nfail line\n"))).filter
        (keepEntry (Re.compile (gs "fail")) failPatternOpts.logLevel)) :=
  claim8_loop_is_filter failPatternOpts (fun _ => epochTs) (gs "ok line\nfail line\n")
    (Re.compile (gs "fail")) rfl
